import Mathlib

/-!
Verification of the detection post-processing pipeline of a browser-based
YOLO object-detection/segmentation demo.  The JavaScript sources
(`src/utils.js` and the segmentation component) are shallowly embedded:
numeric buffers become functions `Nat → ℚ` (or `Nat → ℝ` for the mask
path), boxes and candidate detections become a structure over `ℚ`, and the
fallible tensor-layout detection returns `Except String`.

JavaScript objects may lack a field (reading it yields `undefined`), so the
class fields of a candidate are `Option ℤ`: `parseYolo` emits candidates
with a `cls` field and no `clsId` field, while the segmentation decoder
emits `clsId`.  The NMS filter reads `clsId` with JavaScript strict
inequality, which `DecidableEq (Option ℤ)` models exactly
(`undefined !== undefined` is false, i.e. `none = none`).
-/

/-- A candidate detection as produced by the decoders in `src/utils.js`
(`parseYolo`, corner form) and consumed by `nonMaxSuppression`.
`cls` and `clsId` are the two distinct JavaScript fields used by the
two decoders; either may be absent (`none`). -/
structure Det where
  x1 : ℚ
  y1 : ℚ
  x2 : ℚ
  y2 : ℚ
  score : ℚ
  cls : Option ℤ
  clsId : Option ℤ
  deriving DecidableEq, Repr

/-- `iou` from `src/utils.js`: intersection over union of two corner-form
boxes, with the denominator floored at `1e-6`. -/
def iou (a b : Det) : ℚ :=
  let x1 := max a.x1 b.x1
  let y1 := max a.y1 b.y1
  let x2 := min a.x2 b.x2
  let y2 := min a.y2 b.y2
  let w := max 0 (x2 - x1)
  let h := max 0 (y2 - y1)
  let inter := w * h
  let areaA := (a.x2 - a.x1) * (a.y2 - a.y1)
  let areaB := (b.x2 - b.x1) * (b.y2 - b.y1)
  inter / max (1 / 1000000) (areaA + areaB - inter)

/-- The descending-score comparison used by
`detections.sort((a, b) => b.score - a.score)`. -/
def scoreGE (a b : Det) : Prop := b.score ≤ a.score

instance : DecidableRel scoreGE := fun a b =>
  inferInstanceAs (Decidable (b.score ≤ a.score))

instance : IsTotal Det scoreGE := ⟨fun a b => le_total b.score a.score⟩

instance : IsTrans Det scoreGE := ⟨fun _ _ _ hab hbc => le_trans hbc hab⟩

/-- The greedy suppression loop of `nonMaxSuppression`: pop the best
remaining candidate, drop every remaining candidate of the same `clsId`
whose IoU with it is not below the threshold.  The JS `while` loop runs
while `keep.length < maxDet`, so `maxDet` is an exact fuel. -/
def nmsLoop (iouThreshold : ℚ) : ℕ → List Det → List Det
  | 0, _ => []
  | fuel + 1, l =>
    match l with
    | [] => []
    | best :: rest =>
      best :: nmsLoop iouThreshold fuel (rest.filter fun det =>
        decide (det.clsId ≠ best.clsId) || decide (iou best det < iouThreshold))

/-- `nonMaxSuppression` from `src/utils.js`: sort by score descending, then
run the greedy suppression loop with keep-count bound `maxDet`. -/
def nonMaxSuppression (detections : List Det) (iouThreshold : ℚ) (maxDet : ℕ) : List Det :=
  nmsLoop iouThreshold maxDet (List.insertionSort scoreGE detections)

/-- Element access of `parseYolo`:
`(i, k) => (transposed ? data[k * numPred + i] : data[i * stride + k])`. -/
def getAt (data : ℕ → ℚ) (transposed : Bool) (numPred stride i k : ℕ) : ℚ :=
  if transposed then data (k * numPred + i) else data (i * stride + k)

/-- Tensor-layout auto-detection of `parseYolo` (lines 105-119 of
`src/utils.js`), returning `(numPred, stride, transposed)` or the thrown
error for an unsupported rank. -/
def detectLayout (dims : List ℕ) : Except String (ℕ × ℕ × Bool) :=
  match dims with
  | [_, d1, d2] =>
    if d2 < d1 then Except.ok (d1, d2, false) else Except.ok (d2, d1, true)
  | [d0, d1] => Except.ok (d0, d1, false)
  | _ =>
    Except.error ("Unsupported output dims: " ++ String.intercalate "x" (dims.map toString))

/-- The class-score scan of `parseYolo`: starting from `score = 0`,
`bestCls = -1`, visit `count` consecutive attributes from `start` in
ascending order and keep the strictly larger score. -/
def scanBest (get : ℕ → ℚ) (start : ℕ) : ℕ → ℚ × ℤ
  | 0 => (0, -1)
  | c + 1 =>
    let p := scanBest get start c
    let s := get (start + c)
    if p.1 < s then (s, (c : ℤ)) else p

/-- Per-anchor scoring of `parseYolo`: the branch guard is
`likelyV8V11 = (stride === 84) || (stride !== 85)`; the v8/v11 branch scans
`stride - 4` class scores from attribute 4, the v5 branch multiplies the
objectness at attribute 4 by the best of `stride - 5` class scores from
attribute 5. -/
def anchorScore (get : ℕ → ℚ) (stride : ℕ) : ℚ × ℤ :=
  if stride = 84 ∨ stride ≠ 85 then
    scanBest get 4 (stride - 4)
  else
    let obj := get 4
    let p := scanBest get 5 (stride - 5)
    (obj * p.1, p.2)

/-- One iteration of the anchor loop of `parseYolo`: read `cx, cy, w, h`,
score the anchor, drop it when `score < confThresh`, otherwise emit the
corner-form candidate.  The emitted object carries a `cls` field and no
`clsId` field, exactly as `dets.push({ x1, y1, x2, y2, score, cls })`. -/
def decodeAnchor (data : ℕ → ℚ) (transposed : Bool) (numPred stride : ℕ)
    (confThresh : ℚ) (i : ℕ) : Option Det :=
  let get := fun k => getAt data transposed numPred stride i k
  let cx := get 0
  let cy := get 1
  let w := get 2
  let h := get 3
  let p := anchorScore get stride
  if p.1 < confThresh then none
  else some { x1 := cx - w / 2, y1 := cy - h / 2, x2 := cx + w / 2, y2 := cy + h / 2,
              score := p.1, cls := some p.2, clsId := none }

/-- The full anchor loop of `parseYolo` before the normalization
correction. -/
def rawDets (data : ℕ → ℚ) (transposed : Bool) (numPred stride : ℕ)
    (confThresh : ℚ) : List Det :=
  (List.range numPred).filterMap (decodeAnchor data transposed numPred stride confThresh)

/-- The coordinate maximum computed by `parseYolo`:
`dets.reduce((m, d) => Math.max(m, d.x2, d.y2), 0)` — only `x2` and `y2`
are inspected, with accumulator starting at `0`. -/
def maxTailCoord (dets : List Det) : ℚ :=
  dets.foldl (fun m d => max m (max d.x2 d.y2)) 0

/-- The per-candidate action of the normalization correction: multiply the
four box coordinates by the input size. -/
def scaleDet (s : ℚ) (d : Det) : Det :=
  { d with x1 := d.x1 * s, y1 := d.y1 * s, x2 := d.x2 * s, y2 := d.y2 * s }

/-- `parseYolo` from `src/utils.js`: detect the tensor layout, decode every
anchor, and apply the one-shot normalization correction when the computed
coordinate maximum is at most `2`. -/
def parseYolo (data : ℕ → ℚ) (dims : List ℕ) (confThresh inputSize : ℚ) :
    Except String (List Det) :=
  match detectLayout dims with
  | Except.error e => Except.error e
  | Except.ok (numPred, stride, transposed) =>
    let dets := rawDets data transposed numPred stride confThresh
    if maxTailCoord dets ≤ 2 then Except.ok (dets.map (scaleDet inputSize))
    else Except.ok dets

/-- JavaScript `Math.round` on an exact rational: half-away-from-zero for
positive arguments, i.e. `⌊q + 1/2⌋`. -/
def jsRound (q : ℚ) : ℤ := ⌊q + 1 / 2⌋

/-- The letterbox mapping record of `src/utils.js` (canvas omitted). -/
structure LetterboxMap where
  scale : ℚ
  nw : ℤ
  nh : ℤ
  padLeft : ℤ
  padTop : ℤ
  deriving DecidableEq, Repr

/-- `letterbox` from `src/utils.js`: aspect-preserving scale into an
`newSize × newSize` square with centered padding,
`padLeft = ⌊(newSize - nw) / 2⌋`. -/
def letterbox (iw ih newSize : ℕ) : LetterboxMap :=
  let scale : ℚ := min ((newSize : ℚ) / (iw : ℚ)) ((newSize : ℚ) / (ih : ℚ))
  let nw := jsRound ((iw : ℚ) * scale)
  let nh := jsRound ((ih : ℚ) * scale)
  { scale := scale, nw := nw, nh := nh,
    padLeft := Int.fdiv ((newSize : ℤ) - nw) 2,
    padTop := Int.fdiv ((newSize : ℤ) - nh) 2 }

/-- The forward letterbox point transform of the spec: a source-space
coordinate `v` maps to model-input space as `v * scale + pad`. -/
def mapToModel (v scale pad : ℚ) : ℚ := v * scale + pad

/-- The inverse mapping applied to `x1`/`y1` in `drawDetectionsOnSource`:
`Math.max(0, (v - pad) / scale)`. -/
def unmapLow (v pad scale : ℚ) : ℚ := max 0 ((v - pad) / scale)

/-- The inverse mapping applied to `x2`/`y2` in `drawDetectionsOnSource`:
`Math.min(dim, (v - pad) / scale)`. -/
def unmapHigh (v pad scale dim : ℚ) : ℚ := min dim ((v - pad) / scale)

/-- Spec-side description of row-major element access: attribute `k` of
anchor `i` in a tensor with `d` attributes per anchor lives at
`data[i * d + k]`. -/
def rowMajorGet (data : ℕ → ℚ) (d i k : ℕ) : ℚ := data (i * d + k)

/-- Spec-side description of transposed element access: attribute `k` of
anchor `i` among `n` anchors lives at `data[k * n + i]`. -/
def transposedGet (data : ℕ → ℚ) (n i k : ℕ) : ℚ := data (k * n + i)

/-- Spec-side best score of a consecutive attribute range: the maximum of
`count` attributes from `start`, floored at the initial accumulator `0`. -/
def foldMax (get : ℕ → ℚ) (start count : ℕ) : ℚ :=
  (List.range count).foldl (fun m c => max m (get (start + c))) 0

/-- Spec-side maximum observed coordinate across all candidates: the
maximum of all four box coordinates of every candidate (accumulator 0). -/
def allCoordMax (dets : List Det) : ℚ :=
  dets.foldl (fun m d => max m (max (max d.x1 d.y1) (max d.x2 d.y2))) 0

/-- The logistic squashing applied to each reconstructed mask value:
`sigmoid(v) = 1 / (1 + e^(-v))`. -/
noncomputable def sigmoid (v : ℝ) : ℝ := 1 / (1 + Real.exp (-v))

/-- The mask accumulation loop of the segmentation component:
`m[i] += coeff[c] * proto[c * pH * pW + i]` for `c` ascending from `0`,
starting from a zero-filled buffer.  `pHW` is `pH * pW`. -/
def linCombine (coeffs proto : ℕ → ℝ) (pHW i : ℕ) : ℕ → ℝ
  | 0 => 0
  | c + 1 => linCombine coeffs proto pHW i c + coeffs c * proto (c * pHW + i)

/-- The reconstructed soft-mask value at spatial position `i`: the linear
combination of `maskDim` prototype channels followed by the logistic
squashing, exactly as in `runSegmentationOnImage` / `inferOneVideoFrame`. -/
noncomputable def reconstructMask (coeffs proto : ℕ → ℝ) (pHW i maskDim : ℕ) : ℝ :=
  sigmoid (linCombine coeffs proto pHW i maskDim)

/-! Evaluation equations and invariant lemmas for the suppression loop. -/

theorem nmsLoop_nil (θ : ℚ) (fuel : ℕ) : nmsLoop θ fuel [] = [] := by
  cases fuel <;> rfl

theorem nmsLoop_cons (θ : ℚ) (fuel : ℕ) (best : Det) (rest : List Det) :
    nmsLoop θ (fuel + 1) (best :: rest) =
      best :: nmsLoop θ fuel (rest.filter fun det =>
        decide (det.clsId ≠ best.clsId) || decide (iou best det < θ)) := rfl

theorem length_nmsLoop (θ : ℚ) : ∀ (fuel : ℕ) (l : List Det),
    (nmsLoop θ fuel l).length ≤ fuel := by
  intro fuel
  induction fuel with
  | zero => intro l; simp [nmsLoop]
  | succ n ih =>
    intro l
    cases l with
    | nil => simp [nmsLoop]
    | cons best rest =>
      rw [nmsLoop_cons]
      simpa using Nat.succ_le_succ (ih _)

theorem mem_nmsLoop (θ : ℚ) : ∀ (fuel : ℕ) (l : List Det) (d : Det),
    d ∈ nmsLoop θ fuel l → d ∈ l := by
  intro fuel
  induction fuel with
  | zero => intro l d h; simp [nmsLoop] at h
  | succ n ih =>
    intro l d h
    cases l with
    | nil => simp [nmsLoop] at h
    | cons best rest =>
      rw [nmsLoop_cons] at h
      rcases List.mem_cons.1 h with h | h
      · exact h ▸ List.mem_cons_self _ _
      · exact List.mem_cons_of_mem _ (List.mem_of_mem_filter (ih _ _ h))

theorem sorted_nmsLoop (θ : ℚ) : ∀ (fuel : ℕ) (l : List Det),
    l.Sorted scoreGE → (nmsLoop θ fuel l).Sorted scoreGE := by
  intro fuel
  induction fuel with
  | zero => intro l _; simp [nmsLoop]
  | succ n ih =>
    intro l hl
    cases l with
    | nil => simp [nmsLoop]
    | cons best rest =>
      rw [nmsLoop_cons]
      rcases List.sorted_cons.1 hl with ⟨hbest, hrest⟩
      refine List.sorted_cons.2 ⟨?_, ih _ (hrest.filter _)⟩
      intro b hb
      exact hbest b (List.mem_of_mem_filter (mem_nmsLoop θ n _ b hb))

/-- The running-maximum scan of `parseYolo` computes exactly the spec-side
floored maximum of the scanned attribute range. -/
theorem scanBest_fst (get : ℕ → ℚ) (start : ℕ) : ∀ count : ℕ,
    (scanBest get start count).1 = foldMax get start count := by
  intro count
  induction count with
  | zero => rfl
  | succ c ih =>
    rw [foldMax, List.range_succ, List.foldl_append]
    show (if (scanBest get start c).1 < get (start + c)
        then (get (start + c), (c : ℤ)) else scanBest get start c).1 = _
    rw [← foldMax, ← ih]
    rcases lt_or_le (scanBest get start c).1 (get (start + c)) with h | h
    · rw [if_pos h]
      exact (max_eq_right h.le).symm
    · rw [if_neg (not_lt.2 h)]
      exact (max_eq_left h).symm

/-- Positivity of the letterbox scale for nondegenerate inputs. -/
theorem letterbox_scale_pos (iw ih newSize : ℕ) (hiw : 0 < iw) (hih : 0 < ih)
    (hS : 0 < newSize) : 0 < (letterbox iw ih newSize).scale := by
  have h1 : (0 : ℚ) < (newSize : ℚ) / (iw : ℚ) :=
    div_pos (by exact_mod_cast hS) (by exact_mod_cast hiw)
  have h2 : (0 : ℚ) < (newSize : ℚ) / (ih : ℚ) :=
    div_pos (by exact_mod_cast hS) (by exact_mod_cast hih)
  simpa [letterbox] using lt_min h1 h2

/-- The lower-clamped inverse mapping is exactly inverse to the forward
mapping on nonnegative source coordinates. -/
theorem unmapLow_mapToModel (v pad scale : ℚ) (hs : 0 < scale) (h0 : 0 ≤ v) :
    unmapLow (mapToModel v scale pad) pad scale = v := by
  rw [unmapLow, mapToModel, add_sub_cancel_right, mul_div_cancel_right₀ v (ne_of_gt hs)]
  exact max_eq_right h0

/-- The upper-clamped inverse mapping is exactly inverse to the forward
mapping on coordinates within the source dimension. -/
theorem unmapHigh_mapToModel (v pad scale dim : ℚ) (hs : 0 < scale) (hd : v ≤ dim) :
    unmapHigh (mapToModel v scale pad) pad scale dim = v := by
  rw [unmapHigh, mapToModel, add_sub_cancel_right, mul_div_cancel_right₀ v (ne_of_gt hs)]
  exact min_eq_right hd

/-- The mask accumulation loop computes the spec's linear combination
`Σ coeff[c] * proto[c * pHW + i]`. -/
theorem linCombine_eq_sum (coeffs proto : ℕ → ℝ) (pHW i : ℕ) : ∀ K : ℕ,
    linCombine coeffs proto pHW i K =
      ∑ c ∈ Finset.range K, coeffs c * proto (c * pHW + i) := by
  intro K
  induction K with
  | zero => simp [linCombine]
  | succ n ih => rw [linCombine, ih, Finset.sum_range_succ]

theorem sigmoid_pos (v : ℝ) : 0 < sigmoid v := by
  rw [sigmoid]
  positivity

theorem sigmoid_le_one (v : ℝ) : sigmoid v ≤ 1 := by
  rw [sigmoid, div_le_one (by positivity)]
  linarith [Real.exp_pos (-v)]

/-! Concrete inputs used by the claim-level theorems below. -/

/-- Two same-class candidates whose IoU is exactly `1/2`: the boxes
`(0,0,2,1)` (score `9/10`) and `(0,0,1,1)` (score `8/10`). -/
def cA : Det := ⟨0, 0, 2, 1, 9/10, none, some 0⟩

/-- See `cA`. -/
def cB : Det := ⟨0, 0, 1, 1, 8/10, none, some 0⟩

/-- A detection tensor buffer with two anchors of 6 attributes each (4 box
values and 2 class scores), both decoding to the box `(0,0,10,10)` with
distinct argmax classes. -/
def segData : ℕ → ℚ := fun n =>
  [5, 5, 10, 10, 9/10, 1/10, 5, 5, 10, 10, 1/10, 8/10].getD n 0

/-- The two candidates `parseYolo` extracts from `segData`: same box,
distinct `cls`, and (as for all `parseYolo` output) no `clsId` field. -/
def pd0 : Det := ⟨0, 0, 10, 10, 9/10, some 0, none⟩

/-- See `pd0`. -/
def pd1 : Det := ⟨0, 0, 10, 10, 8/10, some 1, none⟩

/-- A one-anchor tensor buffer with 6 attributes: objectness-style data
(`obj = 1/2` at attribute 4, one class score `3/5` at attribute 5). -/
def v5Data : ℕ → ℚ := fun n => [2, 2, 2, 2, 1/2, 3/5].getD n 0

/-- A one-anchor tensor buffer whose anchor has negative width
(`w = -6`), so its `x1 = 5` exceeds its `x2 = -1`. -/
def negWData : ℕ → ℚ := fun n => [2, 1/2, -6, 1, 9/10, 1/10].getD n 0

/-- The constant-1 buffer, used to instantiate universally quantified
theorems at a concrete input. -/
def uno : ℕ → ℚ := fun _ => 1

/-! The claim-level theorems. -/

/-- C1 counterexample: two same-class candidates whose IoU is exactly the
NMS threshold `θ = 1/2`.  The claim says both are kept; `nonMaxSuppression`
keeps a remaining candidate only when `iou < θ`, so the lower-scoring one
is suppressed. -/
theorem nms_at_threshold_suppresses :
    cA.clsId = cB.clsId ∧ iou cA cB = 1/2 ∧
    nonMaxSuppression [cA, cB] (1/2) 100 = [cA] := by
  refine ⟨rfl, ?_, ?_⟩
  · norm_num [iou, cA, cB, max_def, min_def]
  · norm_num [nonMaxSuppression, nmsLoop, List.insertionSort, List.orderedInsert, scoreGE,
      iou, cA, cB, max_def, min_def]

/-- C1 amended: for two same-class candidates (lower score second) and
keep bound at least 2, the lower-scoring candidate is suppressed exactly
when its IoU with the higher-scoring one is greater than OR EQUAL to the
threshold; it is kept exactly when the IoU is strictly below the
threshold. -/
theorem nms_threshold_ge (A B : Det) (θ : ℚ) (M : ℕ) (hM : 2 ≤ M)
    (hcls : B.clsId = A.clsId) (hscore : B.score ≤ A.score) :
    (θ ≤ iou A B → nonMaxSuppression [A, B] θ M = [A]) ∧
    (iou A B < θ → nonMaxSuppression [A, B] θ M = [A, B]) := by
  obtain ⟨m, rfl⟩ : ∃ m, M = m + 2 := ⟨M - 2, by omega⟩
  have hsort : List.insertionSort scoreGE [A, B] = [A, B] := by
    simp [List.insertionSort, List.orderedInsert, scoreGE, hscore]
  constructor
  · intro h
    rw [nonMaxSuppression, hsort, show m + 2 = (m + 1) + 1 from rfl, nmsLoop_cons]
    have hfilter : List.filter
        (fun det => decide (det.clsId ≠ A.clsId) || decide (iou A det < θ)) [B] = [] := by
      simp [hcls, not_lt.2 h]
    rw [hfilter, nmsLoop_nil]
  · intro h
    rw [nonMaxSuppression, hsort, show m + 2 = (m + 1) + 1 from rfl, nmsLoop_cons]
    have hfilter : List.filter
        (fun det => decide (det.clsId ≠ A.clsId) || decide (iou A det < θ)) [B] = [B] := by
      simp [hcls, h]
    rw [hfilter, nmsLoop_cons, List.filter_nil, nmsLoop_nil]

/-- C1 witness: the amended theorem applied to the concrete pair `cA`,
`cB` (IoU `1/2`) with threshold `3/4`. -/
theorem nms_threshold_ge_witness :
    (2 : ℕ) ≤ 100 ∧ nonMaxSuppression [cA, cB] (3/4) 100 = [cA, cB] := by
  refine ⟨by norm_num, (nms_threshold_ge cA cB (3/4) 100 (by norm_num) rfl
    (by norm_num [cA, cB])).2 ?_⟩
  norm_num [iou, cA, cB, max_def, min_def]

/-- C2 (code bug): `parseYolo` emits candidates carrying `cls`, but
`nonMaxSuppression` compares `clsId`, which is absent (`none`) on every
`parseYolo` candidate, so the class guard never fires: two candidates of
different class with IoU 1 are NOT both kept — the lower-scoring one is
suppressed, contradicting the JSDoc of `nonMaxSuppression` (its parameter
type names the field `cls` and calls the pass class-wise). -/
theorem nms_cross_class_suppressed :
    parseYolo segData [2, 6] (1/2) 640 = Except.ok [pd0, pd1] ∧
    pd0.cls ≠ pd1.cls ∧ iou pd0 pd1 = 1 ∧
    nonMaxSuppression [pd0, pd1] (45/100) 100 = [pd0] := by
  refine ⟨?_, by simp [pd0, pd1], ?_, ?_⟩
  · norm_num [parseYolo, detectLayout, rawDets, decodeAnchor, getAt, anchorScore, scanBest,
      maxTailCoord, segData, pd0, pd1, max_def, List.range_succ, List.filterMap_cons,
      List.filterMap_nil]
  · norm_num [iou, pd0, pd1, max_def, min_def]
  · norm_num [nonMaxSuppression, nmsLoop, List.insertionSort, List.orderedInsert, scoreGE,
      iou, pd0, pd1, max_def, min_def]

/-- C3 counterexample: a 6-attribute tensor read with configured class
count 1 (so `D = 6 = numClasses + 5`).  The claim's objectness rule would
give score `obj × best = 1/2 × 3/5 = 3/10` (below the `2/5` threshold);
`parseYolo` instead takes the class-scores-only branch (its guard is the
hardcoded `stride !== 85`) and emits score `3/5`. -/
theorem parseYolo_branch_hardcoded :
    parseYolo v5Data [1, 6] (2/5) 640 = Except.ok [⟨1, 1, 3, 3, 3/5, some 1, none⟩] ∧
    v5Data 4 * foldMax v5Data 5 1 = 3/10 ∧ ((3 : ℚ)/5) ≠ 3/10 := by
  refine ⟨?_, ?_, by norm_num⟩
  · norm_num [parseYolo, detectLayout, rawDets, decodeAnchor, getAt, anchorScore, scanBest,
      maxTailCoord, v5Data, max_def, List.range_succ, List.filterMap_cons, List.filterMap_nil]
  · norm_num [foldMax, v5Data, List.range_succ, max_def]

/-- C3 amended: the decoder branch is selected by comparison with the
hardcoded attribute count 85 — class-scores-only exactly when `D ≠ 85`
(best of `D - 4` scores from attribute 4), objectness × best-class-score
exactly when `D = 85` (objectness at attribute 4, best of 80 scores from
attribute 5) — independent of any configured class count. -/
theorem anchorScore_branch (get : ℕ → ℚ) (stride : ℕ) :
    (stride ≠ 85 → anchorScore get stride = scanBest get 4 (stride - 4) ∧
      (anchorScore get stride).1 = foldMax get 4 (stride - 4)) ∧
    (stride = 85 → (anchorScore get stride).1 = get 4 * foldMax get 5 80) := by
  constructor
  · intro h
    rw [anchorScore, if_pos (Or.inr h)]
    exact ⟨rfl, scanBest_fst get 4 _⟩
  · intro h
    subst h
    rw [anchorScore, if_neg (by norm_num)]
    show get 4 * (scanBest get 5 (85 - 5)).1 = get 4 * foldMax get 5 80
    rw [scanBest_fst]

/-- C3 witness: the amended theorem applied to the constant-1 buffer at
strides 84 and 85. -/
theorem anchorScore_branch_witness :
    (anchorScore uno 84 = scanBest uno 4 (84 - 4) ∧
      (anchorScore uno 84).1 = foldMax uno 4 (84 - 4)) ∧
    (anchorScore uno 85).1 = uno 4 * foldMax uno 5 80 :=
  ⟨(anchorScore_branch uno 84).1 (by norm_num), (anchorScore_branch uno 85).2 rfl⟩

/-- C4: for a 3-dimensional tensor `[d0, a, b]`, `parseYolo` selects the
row-major layout (anchor count `a`, access `data[i * b + k]`) exactly when
`a > b`, and the transposed layout (anchor count `b`, access
`data[k * b + i]`) otherwise; in particular shape `[1, 84, 8400]` selects
the transposed branch. -/
theorem parseYolo_layout (d0 a b : ℕ) (data : ℕ → ℚ) (i k : ℕ) :
    (b < a → detectLayout [d0, a, b] = Except.ok (a, b, false) ∧
      getAt data false a b i k = rowMajorGet data b i k) ∧
    (¬ b < a → detectLayout [d0, a, b] = Except.ok (b, a, true) ∧
      getAt data true b a i k = transposedGet data b i k) ∧
    detectLayout [1, 84, 8400] = Except.ok (8400, 84, true) := by
  refine ⟨fun h => ⟨?_, rfl⟩, fun h => ⟨?_, rfl⟩, rfl⟩
  · simp [detectLayout, h]
  · simp [detectLayout, h]

/-- C4 witness: the layout theorem applied to the concrete shape
`[1, 84, 8400]`. -/
theorem parseYolo_layout_witness :
    detectLayout [1, 84, 8400] = Except.ok (8400, 84, true) ∧
    getAt uno true 8400 84 0 0 = transposedGet uno 8400 0 0 :=
  (parseYolo_layout 1 84 8400 uno 0 0).2.1 (by norm_num)

/-- C5 counterexample: a candidate with negative width has `x1 = 5`
(greater than 2) but `x2 = -1`, `y2 = 1`.  The maximum observed coordinate
across all candidates is `5 > 2`, so the claim says the coordinates stay
unchanged; `parseYolo` only inspects `x2`/`y2` (floored at 0), finds
`1 ≤ 2`, and scales every coordinate by the input size 640. -/
theorem parseYolo_norm_ignores_x1y1 :
    rawDets negWData false 1 6 (1/4) = [⟨5, 0, -1, 1, 9/10, some 0, none⟩] ∧
    allCoordMax [⟨5, 0, -1, 1, 9/10, some 0, none⟩] = 5 ∧ ¬ ((5 : ℚ) ≤ 2) ∧
    parseYolo negWData [1, 6] (1/4) 640 =
      Except.ok [⟨3200, 0, -640, 640, 9/10, some 0, none⟩] ∧
    (⟨3200, 0, -640, 640, 9/10, some 0, none⟩ : Det) ≠ ⟨5, 0, -1, 1, 9/10, some 0, none⟩ := by
  refine ⟨?_, ?_, by norm_num, ?_, by simp⟩
  · norm_num [rawDets, decodeAnchor, getAt, anchorScore, scanBest, negWData, max_def,
      List.range_succ, List.filterMap_cons, List.filterMap_nil]
  · norm_num [allCoordMax, max_def]
  · norm_num [parseYolo, detectLayout, rawDets, decodeAnchor, getAt, anchorScore, scanBest,
      maxTailCoord, scaleDet, negWData, max_def, List.range_succ, List.filterMap_cons,
      List.filterMap_nil]

/-- C5 amended: after full extraction, `parseYolo` applies the scaling
globally exactly when `maxTailCoord` — the fold of `max(m, x2, y2)` over
the candidates with accumulator 0, which never inspects `x1`/`y1` — is at
most 2; the scaling multiplies all four coordinates of every candidate by
the input size. -/
theorem parseYolo_norm_correction (data : ℕ → ℚ) (dims : List ℕ) (confThresh inputSize : ℚ)
    (numPred stride : ℕ) (transposed : Bool)
    (h : detectLayout dims = Except.ok (numPred, stride, transposed)) :
    parseYolo data dims confThresh inputSize =
      (if maxTailCoord (rawDets data transposed numPred stride confThresh) ≤ 2
        then Except.ok ((rawDets data transposed numPred stride confThresh).map
          (scaleDet inputSize))
        else Except.ok (rawDets data transposed numPred stride confThresh)) ∧
    ∀ d : Det, scaleDet inputSize d =
      ⟨d.x1 * inputSize, d.y1 * inputSize, d.x2 * inputSize, d.y2 * inputSize,
        d.score, d.cls, d.clsId⟩ := by
  exact ⟨by rw [parseYolo, h], fun d => rfl⟩

/-- C5 witness: the amended theorem applied to the concrete negative-width
buffer. -/
theorem parseYolo_norm_correction_witness :
    parseYolo negWData [1, 6] (1/4) 640 =
      (if maxTailCoord (rawDets negWData false 1 6 (1/4)) ≤ 2
        then Except.ok ((rawDets negWData false 1 6 (1/4)).map (scaleDet 640))
        else Except.ok (rawDets negWData false 1 6 (1/4))) :=
  (parseYolo_norm_correction negWData [1, 6] (1/4) 640 1 6 false rfl).1

/-- C6: the concrete letterbox scenario — a 1280×720 source at target 640
yields scale 1/2, scaled size 640×360, pads (0, 140), and the model-space
box (100, 140, 300, 340) unmaps to (200, 0, 600, 400) in source space. -/
theorem letterbox_concrete :
    (letterbox 1280 720 640).scale = 1/2 ∧ (letterbox 1280 720 640).nw = 640 ∧
    (letterbox 1280 720 640).nh = 360 ∧ (letterbox 1280 720 640).padLeft = 0 ∧
    (letterbox 1280 720 640).padTop = 140 ∧
    unmapLow 100 ((letterbox 1280 720 640).padLeft : ℚ) (letterbox 1280 720 640).scale
      = 200 ∧
    unmapLow 140 ((letterbox 1280 720 640).padTop : ℚ) (letterbox 1280 720 640).scale
      = 0 ∧
    unmapHigh 300 ((letterbox 1280 720 640).padLeft : ℚ) (letterbox 1280 720 640).scale 1280
      = 600 ∧
    unmapHigh 340 ((letterbox 1280 720 640).padTop : ℚ) (letterbox 1280 720 640).scale 720
      = 400 := by
  norm_num [letterbox, jsRound, unmapLow, unmapHigh, min_def, max_def, Int.fdiv]

/-- C7: for any positive source size and target size, any source point
mapped into model space by the letterbox transform and back through either
clamped unmapping returns the original coordinate within ±1 (indeed
exactly). -/
theorem letterbox_roundtrip (iw ih newSize : ℕ) (x y : ℚ)
    (hiw : 0 < iw) (hih : 0 < ih) (hS : 0 < newSize)
    (hx0 : 0 ≤ x) (hxw : x ≤ (iw : ℚ)) (hy0 : 0 ≤ y) (hyh : y ≤ (ih : ℚ)) :
    |unmapLow (mapToModel x (letterbox iw ih newSize).scale
        ((letterbox iw ih newSize).padLeft : ℚ))
      ((letterbox iw ih newSize).padLeft : ℚ) (letterbox iw ih newSize).scale - x| ≤ 1 ∧
    |unmapHigh (mapToModel x (letterbox iw ih newSize).scale
        ((letterbox iw ih newSize).padLeft : ℚ))
      ((letterbox iw ih newSize).padLeft : ℚ) (letterbox iw ih newSize).scale (iw : ℚ)
        - x| ≤ 1 ∧
    |unmapLow (mapToModel y (letterbox iw ih newSize).scale
        ((letterbox iw ih newSize).padTop : ℚ))
      ((letterbox iw ih newSize).padTop : ℚ) (letterbox iw ih newSize).scale - y| ≤ 1 ∧
    |unmapHigh (mapToModel y (letterbox iw ih newSize).scale
        ((letterbox iw ih newSize).padTop : ℚ))
      ((letterbox iw ih newSize).padTop : ℚ) (letterbox iw ih newSize).scale (ih : ℚ)
        - y| ≤ 1 := by
  have hs := letterbox_scale_pos iw ih newSize hiw hih hS
  refine ⟨?_, ?_, ?_, ?_⟩
  · rw [unmapLow_mapToModel _ _ _ hs hx0]; simp
  · rw [unmapHigh_mapToModel _ _ _ _ hs hxw]; simp
  · rw [unmapLow_mapToModel _ _ _ hs hy0]; simp
  · rw [unmapHigh_mapToModel _ _ _ _ hs hyh]; simp

/-- C7 witness: the round-trip theorem at the concrete 1280×720 source,
target 640, point (100, 50). -/
theorem letterbox_roundtrip_witness :
    |unmapLow (mapToModel 100 (letterbox 1280 720 640).scale
        ((letterbox 1280 720 640).padLeft : ℚ))
      ((letterbox 1280 720 640).padLeft : ℚ) (letterbox 1280 720 640).scale - 100| ≤ 1 :=
  (letterbox_roundtrip 1280 720 640 100 50 (by norm_num) (by norm_num) (by norm_num)
    (by norm_num) (by norm_num) (by norm_num) (by norm_num)).1

/-- C8: each reconstructed mask value is the logistic squashing of the
linear combination `Σ coeff[c] × proto[c * pHW + i]`, lies in `[0, 1]`,
and — being a pure function of the coefficient and prototype buffers — is
identical across repeated applications to the same inputs. -/
theorem mask_reconstruction (coeffs proto : ℕ → ℝ) (pHW i maskDim : ℕ) :
    reconstructMask coeffs proto pHW i maskDim =
      sigmoid (∑ c ∈ Finset.range maskDim, coeffs c * proto (c * pHW + i)) ∧
    0 ≤ reconstructMask coeffs proto pHW i maskDim ∧
    reconstructMask coeffs proto pHW i maskDim ≤ 1 :=
  ⟨by rw [reconstructMask, linCombine_eq_sum], (sigmoid_pos _).le, sigmoid_le_one _⟩

/-- C9: on a tensor whose rank is neither 2 nor 3, `parseYolo` throws the
unsupported-dims error and produces no candidates. -/
theorem parseYolo_rank_error (data : ℕ → ℚ) (dims : List ℕ) (confThresh inputSize : ℚ)
    (h2 : dims.length ≠ 2) (h3 : dims.length ≠ 3) :
    parseYolo data dims confThresh inputSize =
      Except.error ("Unsupported output dims: " ++
        String.intercalate "x" (dims.map toString)) := by
  rcases dims with _ | ⟨a, _ | ⟨b, _ | ⟨c, _ | ⟨d, rest⟩⟩⟩⟩
  · rfl
  · rfl
  · exact absurd rfl h2
  · exact absurd rfl h3
  · rfl

/-- C9 witness: the rank-error theorem at the concrete 4-dimensional shape
`[1, 2, 3, 4]`. -/
theorem parseYolo_rank_error_witness :
    parseYolo uno [1, 2, 3, 4] 0 1 =
      Except.error ("Unsupported output dims: " ++
        String.intercalate "x" ([1, 2, 3, 4].map toString)) :=
  parseYolo_rank_error uno [1, 2, 3, 4] 0 1 (by decide) (by decide)

/-- C10: for every input list, threshold and keep bound, the output of
`nonMaxSuppression` has length at most the keep bound, draws all its
elements from the input list, and is sorted by non-increasing score. -/
theorem nms_invariants (dets : List Det) (iouThreshold : ℚ) (maxDet : ℕ) :
    (nonMaxSuppression dets iouThreshold maxDet).length ≤ maxDet ∧
    (∀ d, d ∈ nonMaxSuppression dets iouThreshold maxDet → d ∈ dets) ∧
    (nonMaxSuppression dets iouThreshold maxDet).Sorted scoreGE := by
  refine ⟨length_nmsLoop iouThreshold maxDet _, ?_,
    sorted_nmsLoop iouThreshold maxDet _ (List.sorted_insertionSort scoreGE dets)⟩
  intro d hd
  exact (List.perm_insertionSort scoreGE dets).subset
    (mem_nmsLoop iouThreshold maxDet _ d hd)

/-- C10 witness: the invariants applied to the concrete pair `cA`, `cB`
with threshold `1/2` and keep bound 100, discharging the membership
hypothesis at `cA`. -/
theorem nms_invariants_witness : cA ∈ ([cA, cB] : List Det) :=
  (nms_invariants [cA, cB] (1/2) 100).2.1 cA (by
    norm_num [nonMaxSuppression, nmsLoop, List.insertionSort, List.orderedInsert, scoreGE,
      iou, cA, cB, max_def, min_def])
